import Mathlib

/-! Shallow embedding of the iodine core C extension: the Ruby call gateway in
src/ext/core/rb-call.c and the dispatch, upgrade, async-scheduling, read and
startup logic in src/ext/core/core.c.  Ruby VALUEs are modelled by `RVal`,
Ruby's pending-exception state by `Option RException`, and every side effect a
handler performs on the Network Core (lib-server) or on Ruby objects is
recorded in an explicit `Event` trace.  The Network Core itself and the
Registry implementation (rb-registry) are external to the two source files;
their interfaces are modelled as stated in the specification (the Registry is
an identity-keyed keep-alive set, `Server.read` delivers up to the requested
number of the connection's pending bytes). -/

/-- A Ruby VALUE as seen by the bridge: either Qnil or a heap object
identified by a numeric id.  Object identity is id equality. -/
inductive RVal where
  | nil
  | obj (id : Nat)
deriving DecidableEq, Repr

/-- A raised Ruby exception, as read by handle_exception: the name of its
class and its `mesg` attribute. -/
structure RException where
  className : String
  mesg : String
deriving DecidableEq, Repr

/-- Outcome of dispatching a zero-argument method on a Ruby object
(run_ruby_method_unsafe, i.e. rb_funcall with no arguments): the body either
returns a value or raises an exception. -/
inductive MethodOutcome where
  | ok (v : RVal)
  | raised (e : RException)
deriving DecidableEq, Repr

/-- What rb_protect leaves behind: the protected call's return value (Qnil
when an exception was raised), the nonzero `state` flag on a raise, and the
thread's pending-exception slot (rb_errinfo), which rb_protect sets to the
raised exception and otherwise leaves at its prior value. -/
structure ProtectOut where
  returned : RVal
  state : Nat
  errinfo : Option RException
deriving DecidableEq, Repr

/-- rb_protect running run_ruby_method_unsafe (rb-call.c lines 29-38):
`prior` is the pending-exception state before the call. -/
def rb_protect (prior : Option RException) : MethodOutcome → ProtectOut
  | .ok v => { returned := v, state := 0, errinfo := prior }
  | .raised e => { returned := RVal.nil, state := 1, errinfo := some e }

/-- handle_exception (rb-call.c lines 16-27): reads rb_errinfo; when it is
non-nil, prints "ClassName: message" and a stack trace to stderr and clears
the error state (rb_set_errinfo(Qnil)).  Returns the printed diagnostic lines
together with the new pending-exception state. -/
def handle_exception : Option RException → List String × Option RException
  | none => ([], none)
  | some e => ([e.className ++ ": " ++ e.mesg, "<backtrace>"], none)

/-- Result of a gateway call: the value handed back to C code, the
pending-exception state after the call, and the diagnostic lines printed. -/
structure CallResult where
  returned : RVal
  errinfo : Option RException
  diag : List String
deriving DecidableEq, Repr

/-- run_ruby_method_within_gvl (rb-call.c lines 35-42): protect the call and
run handle_exception exactly when `state` is nonzero. -/
def run_ruby_method_within_gvl (prior : Option RException) (o : MethodOutcome) : CallResult :=
  let p := rb_protect prior o
  if p.state ≠ 0 then
    let h := handle_exception p.errinfo
    { returned := p.returned, errinfo := h.2, diag := h.1 }
  else
    { returned := p.returned, errinfo := p.errinfo, diag := [] }

/-- RubyCaller.call (rb-call.c lines 45-49): enters the GVL
(rb_thread_call_with_gvl) and performs the same protected call; the GVL
round-trip does not change the call's observable result. -/
def call (prior : Option RException) (o : MethodOutcome) : CallResult :=
  run_ruby_method_within_gvl prior o

/-- RubyCaller.call_unsafe (rb-call.c lines 52-59): assumes the GVL is held
and performs the protected call directly. -/
def call_unsafe (prior : Option RException) (o : MethodOutcome) : CallResult :=
  let p := rb_protect prior o
  if p.state ≠ 0 then
    let h := handle_exception p.errinfo
    { returned := p.returned, errinfo := h.2, diag := h.1 }
  else
    { returned := p.returned, errinfo := p.errinfo, diag := [] }

/-- The interned Ruby method ids the bridge dispatches on (Init_core). -/
inductive MethodId where
  | new
  | call
  | on_open
  | on_data
  | on_message
  | on_shutdown
  | on_close
  | ping
deriving DecidableEq, Repr

/-- Instance variables the bridge sets on protocol objects: `sockfd`
(fd_var_id) and `server` (server_var_id, the wrapped struct Server). -/
inductive IvarId where
  | sockfd
  | server
deriving DecidableEq, Repr

/-- An observable side effect of a dispatch handler or helper: a gateway
method invocation on a Ruby object, an ivar binding, a Network Core call
(close / touch / task submission), a warning, or a synchronous rb_yield. -/
inductive Event where
  | invoke (o : RVal) (m : MethodId)
  | setIvar (o : RVal) (iv : IvarId)
  | srvClose (fd : Nat)
  | touch (fd : Nat)
  | warn (msg : String)
  | syncYield
  | queueTask (blk : RVal)
  | queueFdTask (fd : Nat) (blk : RVal)
deriving DecidableEq, Repr

/-- The bookkeeping shared between the Registry (the Registered Object Set,
modelled from the spec as an identity-keyed set of kept-alive values), the
per-connection user-data (Server.get_udata / Server.set_udata) and the
pending async tasks handed to the Network Core's queue. -/
structure CoreState where
  registry : List RVal
  udata : Nat → Option RVal
  tasks : List RVal

/-- The state before any connection or task exists. -/
def initState : CoreState := { registry := [], udata := fun _ => none, tasks := [] }

/-- A value is referenced from native state iff some live connection's
user-data holds it or it is an in-flight async task. -/
def tracked (s : CoreState) (v : RVal) : Prop :=
  (∃ fd, s.udata fd = some v) ∨ v ∈ s.tasks

/-- The registry invariant (a value is registered iff it is `tracked`)
together with bookkeeping sanity: the registry, being a set, and the task
list hold no duplicates. -/
def Good (s : CoreState) : Prop :=
  (∀ v, v ∈ s.registry ↔ tracked s v) ∧ s.registry.Nodup ∧ s.tasks.Nodup

/-- core.c on_open (lines 364-377): the protocol class's zero-argument
constructor has produced `constructed` (Qnil when construction failed or
raised, since the gateway returns Qnil on a swallowed exception).  On Qnil
the connection is closed and nothing else happens; otherwise the object is
registered, its `sockfd` and `server` ivars are set, it is stored as the
connection's user-data and its on_open method is invoked. -/
def on_open (s : CoreState) (fd : Nat) (constructed : RVal) : CoreState × List Event :=
  if constructed = RVal.nil then
    (s, [Event.srvClose fd])
  else
    ({ s with registry := constructed :: s.registry,
              udata := Function.update s.udata fd (some constructed) },
     [Event.setIvar constructed IvarId.sockfd, Event.setIvar constructed IvarId.server,
      Event.invoke constructed MethodId.on_open])

/-- core.c on_data (lines 393-398): resolve the bound object from user-data;
when none (already closing) ignore the event, otherwise invoke on_data. -/
def on_data (s : CoreState) (fd : Nat) : List Event :=
  match s.udata fd with
  | none => []
  | some p => [Event.invoke p MethodId.on_data]

/-- core.c on_shutdown (lines 409-414). -/
def on_shutdown (s : CoreState) (fd : Nat) : List Event :=
  match s.udata fd with
  | none => []
  | some p => [Event.invoke p MethodId.on_shutdown]

/-- core.c on_close (lines 417-426): resolve the bound object; when none the
event is a no-op, otherwise invoke on_close, deregister the object and clear
the connection's user-data. -/
def on_close (s : CoreState) (fd : Nat) : CoreState × List Event :=
  match s.udata fd with
  | none => (s, [])
  | some p =>
    ({ s with registry := s.registry.erase p, udata := Function.update s.udata fd none },
     [Event.invoke p MethodId.on_close])

/-- core.c no_ping_func (lines 338-347), the default `ping` method: close the
connection when the main code is not running (Server.is_busy false), else
reset the idle timer (Server.touch). -/
def no_ping_func (fd : Nat) (busy : Bool) : List Event :=
  if !busy then [Event.srvClose fd] else [Event.touch fd]

/-- core.c ping (lines 401-406) dispatching to the default ping method:
resolve the bound object, invoke its ping method (default no_ping_func with
`busy` the value of Server.is_busy for this fd). -/
def ping (s : CoreState) (fd : Nat) (busy : Bool) : List Event :=
  match s.udata fd with
  | none => []
  | some p => Event.invoke p MethodId.ping :: no_ping_func fd busy

/-- The upgrade argument of srv_upgrade: Qnil, a class (in which case
`constructed` is what RubyCaller.call_unsafe(class, new) returned, Qnil when
construction failed), or an already-constructed non-nil instance.  The
rb_include_module calls mutate only the class, not the connection state. -/
inductive UpgradeArg where
  | nilArg
  | cls (constructed : RVal)
  | inst (v : RVal)
deriving DecidableEq, Repr

/-- The local `protocol` variable of srv_upgrade after the construction
block (core.c lines 287-307). -/
def upgradeProtocol : UpgradeArg → RVal
  | .nilArg => RVal.nil
  | .cls constructed => constructed
  | .inst v => v

/-- core.c srv_upgrade (lines 287-322): on a nil argument or a nil
constructed value return Qnil leaving everything unchanged; otherwise store
the new object in the connection's user-data, deregister the calling object
`self`, register the new object, set its `sockfd` and `server` ivars, invoke
on_open on it and return it.  No on_close is ever invoked here. -/
def srv_upgrade (s : CoreState) (fd : Nat) (self : RVal) (arg : UpgradeArg) :
    CoreState × List Event × RVal :=
  let protocol := upgradeProtocol arg
  if protocol = RVal.nil then (s, [], RVal.nil)
  else
    ({ s with udata := Function.update s.udata fd (some protocol),
              registry := protocol :: s.registry.erase self },
     [Event.setIvar protocol IvarId.sockfd, Event.setIvar protocol IvarId.server,
      Event.invoke protocol MethodId.on_open],
     protocol)

/-- The warning text of run_async / run_protocol_task (core.c lines 168-170
and 191-193). -/
def asyncWarnMsg : String :=
  "called an async method in a non-async mode - the task will be performed immediately."

/-- core.c run_async (lines 183-202): when the server settings hold a
negative thread count, warn and rb_yield the block synchronously; the code
then falls through, registers the block and submits it to the Network Core's
task queue (Server.run_async) in every case, returning the block. -/
def run_async (s : CoreState) (threads : Int) (blk : RVal) : CoreState × List Event × RVal :=
  let pre : List Event :=
    if threads < 0 then [Event.warn asyncWarnMsg, Event.syncYield] else []
  if blk = RVal.nil then (s, pre, RVal.nil)
  else
    ({ s with registry := blk :: s.registry, tasks := blk :: s.tasks },
     pre ++ [Event.queueTask blk], blk)

/-- core.c run_protocol_task (lines 160-180): same as run_async but the block
is submitted with connection affinity (Server.fd_task for this fd). -/
def run_protocol_task (s : CoreState) (fd : Nat) (threads : Int) (blk : RVal) :
    CoreState × List Event × RVal :=
  let pre : List Event :=
    if threads < 0 then [Event.warn asyncWarnMsg, Event.syncYield] else []
  if blk = RVal.nil then (s, pre, RVal.nil)
  else
    ({ s with registry := blk :: s.registry, tasks := blk :: s.tasks },
     pre ++ [Event.queueFdTask fd blk], blk)

/-- core.c perform_async (lines 144-149), run by a Network Core worker when
the task is dequeued: call the block's `call` method through the gateway and
deregister it; completion also removes it from the in-flight task set. -/
def perform_async (s : CoreState) (task : RVal) : CoreState × List Event :=
  ({ s with registry := s.registry.erase task, tasks := s.tasks.erase task },
   [Event.invoke task MethodId.call])

/-- core.c perform_protocol_async (lines 152-157): identical bookkeeping for
connection-bound tasks. -/
def perform_protocol_async (s : CoreState) (task : RVal) : CoreState × List Event :=
  ({ s with registry := s.registry.erase task, tasks := s.tasks.erase task },
   [Event.invoke task MethodId.call])

/-- The Ruby value found in a configuration slot or method argument, by the
type tags srv_start and srv_read inspect: Qnil, a Fixnum, a String (its
capacity is what srv_read cares about), a Class, or anything else. -/
inductive RubyVal where
  | nil
  | fixnum (n : Int)
  | str (cap : Nat)
  | cls
  | other
deriving DecidableEq, Repr

/-- TYPE(v) == T_FIXNUM. -/
def isFixnum : RubyVal → Bool
  | .fixnum _ => true
  | _ => false

/-- TYPE(v) == T_STRING. -/
def isStr : RubyVal → Bool
  | .str _ => true
  | _ => false

/-- v == Qnil. -/
def isNil : RubyVal → Bool
  | .nil => true
  | _ => false

/-- TYPE(v) == T_CLASS. -/
def isCls : RubyVal → Bool
  | .cls => true
  | _ => false

/-- FIX2INT: meaningful on a Fixnum; on any other value the macro produces
unspecified bits, modelled by the `garbage` parameter. -/
def fix2int (garbage : Int) : RubyVal → Int
  | .fixnum n => n
  | _ => garbage

/-- The Ruby string srv_read returns: its length and its (always binary)
encoding. -/
structure RStr where
  len : Nat
  binary : Bool
deriving DecidableEq, Repr

/-- The argument vector of srv_read (argc, argv): no argument, one argument,
or more than one. -/
inductive ReadCallArg where
  | args0
  | args1 (v : RubyVal)
  | argsMany
deriving DecidableEq, Repr

/-- The buffer length srv_read computes (core.c lines 240-257): a
non-positive Fixnum falls back to 1024; a String buffer uses its capacity,
resized up to 1024 when smaller. -/
def srv_read_buflen : RubyVal → Nat
  | .fixnum n => if n ≤ 0 then 1024 else n.toNat
  | .str c => if c < 1024 then 1024 else c
  | _ => 1024

/-- The buffer length srv_read uses for a given argument vector (Qnil and a
missing argument both become LONG2FIX(1024)). -/
def bufLenOf : ReadCallArg → Nat
  | .args0 => srv_read_buflen (RubyVal.fixnum 1024)
  | .args1 v => srv_read_buflen (if v = RubyVal.nil then RubyVal.fixnum 1024 else v)
  | .argsMany => 0

/-- The argument vectors srv_read accepts without raising. -/
def readArgValid : ReadCallArg → Bool
  | .args0 => true
  | .args1 .nil => true
  | .args1 (.fixnum _) => true
  | .args1 (.str _) => true
  | _ => false

/-- core.c srv_read (lines 220-269): raise on more than one argument or on a
buffer that is neither Qnil, a Fixnum nor a String; otherwise compute the
buffer length, call Server.read (`io` maps the buffer length to the signed
byte count the Network Core returns), associate the binary encoding, and set
the string's length to the count when positive and to zero otherwise.  The
string itself is always returned. -/
def srv_read_run (buffer : RubyVal) (io : Nat → Int) : RStr :=
  let len := srv_read_buflen buffer
  let inb := io len
  { len := if inb > 0 then inb.toNat else 0, binary := true }

/-- The argument handling of srv_read around `srv_read_run`. -/
def srv_read (arg : ReadCallArg) (io : Nat → Int) : Except String RStr :=
  match arg with
  | .argsMany => .error "ArgumentError"
  | .args0 => .ok (srv_read_run (RubyVal.fixnum 1024) io)
  | .args1 v =>
      if isNil v || isFixnum v || isStr v then
        .ok (srv_read_run (if v = RubyVal.nil then RubyVal.fixnum 1024 else v) io)
      else .error "TypeError"

/-- The capacity of the read buffer def_on_data works with: lazily created
with capacity 1024 when the `scrtbuffer` ivar is nil; an existing smaller
buffer is resized to 1024 by the first srv_read call. -/
def def_on_data_cap : Option Nat → Nat
  | none => 1024
  | some c => if c < 1024 then 1024 else c

/-- The read loop of core.c def_on_data (lines 354-359), with the connection
modelled as holding `pending` unread bytes so that Server.read delivers
min(pending, len) bytes: read through srv_read into the cap-sized buffer,
stop when nothing was read, otherwise invoke on_message with the buffer
contents and loop again only when the read exactly filled the buffer.  The
returned list holds the byte count passed to each on_message invocation.
`fuel` only bounds the iteration count; since every continuing iteration
consumes a full buffer of pending bytes, fuel = pending suffices. -/
def def_on_data_loop (cap : Nat) : Nat → Nat → List Nat
  | 0, _ => []
  | fuel + 1, pending =>
    match srv_read (ReadCallArg.args1 (RubyVal.str cap))
        (fun l => ((min pending l : Nat) : Int)) with
    | .error _ => []
    | .ok r =>
      if r.len = 0 then []
      else r.len :: (if r.len = cap then def_on_data_loop cap fuel (pending - r.len) else [])

/-- core.c def_on_data (lines 349-361): the default on_data callback.
Returns the effective buffer capacity and the sizes handed to on_message. -/
def def_on_data (bufIvar : Option Nat) (pending : Nat) : Nat × List Nat :=
  (def_on_data_cap bufIvar,
   def_on_data_loop (def_on_data_cap bufIvar) pending pending)

/-- The configuration slots srv_start reads from the Iodine instance. -/
structure StartConfig where
  protocol : RubyVal
  port : RubyVal
  address : RubyVal
  timeout : RubyVal
  threads : RubyVal
  processes : RubyVal
  busy_msg : RubyVal
deriving DecidableEq, Repr

/-- The fields of the lib-server settings struct that srv_start fills in
from the validated configuration (core.c lines 544-556). -/
structure SrvSettings where
  threads : Int
  processes : Int
  timeout : Int
  port : Int
deriving DecidableEq, Repr

/-- core.c srv_start (lines 471-559), up to handing the settings to
Server.listen: the validation sequence exactly as written, each raise
reported as an error naming the offending field.  Note that the processes
and threads checks conjoin `TYPE(v) != T_FIXNUM` with the range test, so a
Fixnum never fails them. -/
def srv_start (garbage : Int) (c : StartConfig) : Except String SrvSettings :=
  if ¬ isCls c.protocol then .error "protocol should be a class."
  else if !isNil c.port && !isFixnum c.port then .error "port is not a valid number."
  else
    let iport := if isNil c.port then 3000 else fix2int garbage c.port
    if iport > 65535 || iport < 0 then .error "port out of range."
    else if !isNil c.address && !isStr c.address then
      .error "bind should be either a String or nil."
    else if !isNil c.timeout && (!isFixnum c.timeout
        || fix2int garbage c.timeout > 255 || fix2int garbage c.timeout < 0) then
      .error "timeout is not a valid number (0 to 255)."
    else if !isNil c.processes && !isFixnum c.processes
        && fix2int garbage c.processes > 32 then
      .error "processes is not a valid number (1-32)."
    else if !isNil c.threads && !isFixnum c.threads
        && fix2int garbage c.threads > 128 then
      .error "threads is not a valid number (-1 to 128)."
    else if !isNil c.busy_msg && !isStr c.busy_msg then
      .error "busy_msg should be either a String or nil."
    else .ok { threads := if isNil c.threads then 0 else fix2int garbage c.threads,
               processes := if isNil c.processes then 0 else fix2int garbage c.processes,
               timeout := if isNil c.timeout then 10 else fix2int garbage c.timeout,
               port := iport }

/-! Helper lemmas. -/

/-- Membership of a value in the range of an updated user-data map. -/
theorem exists_update_some (u : Nat → Option RVal) (fd : Nat) (w : Option RVal) (v : RVal) :
    (∃ fd2, Function.update u fd w fd2 = some v) ↔
      w = some v ∨ ∃ fd2, fd2 ≠ fd ∧ u fd2 = some v := by
  constructor
  · rintro ⟨fd2, h⟩
    by_cases hfd : fd2 = fd
    · subst hfd
      rw [Function.update_same] at h
      exact Or.inl h
    · exact Or.inr ⟨fd2, hfd, by rwa [Function.update_noteq hfd] at h⟩
  · rintro (h | ⟨fd2, hne, h⟩)
    · exact ⟨fd, by rw [Function.update_same]; exact h⟩
    · exact ⟨fd2, by rw [Function.update_noteq hne]; exact h⟩

/-- The empty state satisfies the registry invariant. -/
theorem good_initState : Good initState := by
  refine ⟨?_, ?_, ?_⟩ <;> simp [Good, initState, tracked]

/-- on_open preserves the registry invariant for a fresh connection and a
freshly constructed object. -/
theorem good_on_open (s : CoreState) (hG : Good s) (fd : Nat) (p : RVal)
    (hp : p ≠ RVal.nil) (hfresh : ¬ tracked s p) (hfd : s.udata fd = none) :
    Good (on_open s fd p).1 := by
  obtain ⟨hInv, hndr, hndt⟩ := hG
  have hpreg : p ∉ s.registry := fun h => hfresh ((hInv p).1 h)
  simp only [on_open, if_neg hp]
  refine ⟨?_, List.nodup_cons.mpr ⟨hpreg, hndr⟩, hndt⟩
  intro v
  simp only [tracked, List.mem_cons]
  rw [exists_update_some]
  constructor
  · rintro (rfl | hv)
    · exact Or.inl (Or.inl rfl)
    · rcases (hInv v).1 hv with ⟨fd2, h2⟩ | h2
      · have hne : fd2 ≠ fd := by
          rintro rfl
          rw [hfd] at h2
          exact Option.noConfusion h2
        exact Or.inl (Or.inr ⟨fd2, hne, h2⟩)
      · exact Or.inr h2
  · rintro ((h | ⟨fd2, hne, h2⟩) | h2)
    · exact Or.inl (Option.some.inj h).symm
    · exact Or.inr ((hInv v).2 (Or.inl ⟨fd2, h2⟩))
    · exact Or.inr ((hInv v).2 (Or.inr h2))

/-- on_close preserves the registry invariant when the closing connection is
the only native reference to its bound object. -/
theorem good_on_close (s : CoreState) (hG : Good s) (fd : Nat) (p : RVal)
    (hud : s.udata fd = some p) (hpt : p ∉ s.tasks)
    (huniq : ∀ fd2, s.udata fd2 = some p → fd2 = fd) :
    Good (on_close s fd).1 := by
  obtain ⟨hInv, hndr, hndt⟩ := hG
  simp only [on_close, hud]
  refine ⟨?_, hndr.erase p, hndt⟩
  intro v
  simp only [tracked]
  rw [hndr.mem_erase_iff, exists_update_some]
  constructor
  · rintro ⟨hvp, hv⟩
    rcases (hInv v).1 hv with ⟨fd2, h2⟩ | h2
    · have hne : fd2 ≠ fd := by
        rintro rfl
        rw [hud] at h2
        exact hvp (Option.some.inj h2).symm
      exact Or.inl (Or.inr ⟨fd2, hne, h2⟩)
    · exact Or.inr h2
  · rintro ((h | ⟨fd2, hne, h2⟩) | h2)
    · exact Option.noConfusion h
    · have hv : v ∈ s.registry := (hInv v).2 (Or.inl ⟨fd2, h2⟩)
      have hvp : v ≠ p := by
        rintro rfl
        exact hne (huniq fd2 h2)
      exact ⟨hvp, hv⟩
    · have hv : v ∈ s.registry := (hInv v).2 (Or.inr h2)
      have hvp : v ≠ p := by
        rintro rfl
        exact hpt h2
      exact ⟨hvp, hv⟩

/-- srv_upgrade preserves the registry invariant when the old object is
referenced only through this connection and the new object is fresh. -/
theorem good_upgrade (s : CoreState) (hG : Good s) (fd : Nat) (a : RVal) (arg : UpgradeArg)
    (p : RVal) (hparg : upgradeProtocol arg = p) (hp : p ≠ RVal.nil)
    (hud : s.udata fd = some a) (hfresh : ¬ tracked s p) (hat : a ∉ s.tasks)
    (huniq : ∀ fd2, s.udata fd2 = some a → fd2 = fd) :
    Good (srv_upgrade s fd a arg).1 := by
  obtain ⟨hInv, hndr, hndt⟩ := hG
  have hpreg : p ∉ s.registry := fun h => hfresh ((hInv p).1 h)
  simp only [srv_upgrade, hparg, if_neg hp]
  refine ⟨?_, List.nodup_cons.mpr ⟨fun h => hpreg (List.mem_of_mem_erase h), hndr.erase a⟩, hndt⟩
  intro v
  simp only [tracked, List.mem_cons]
  rw [hndr.mem_erase_iff, exists_update_some]
  constructor
  · rintro (rfl | ⟨hva, hv⟩)
    · exact Or.inl (Or.inl rfl)
    · rcases (hInv v).1 hv with ⟨fd2, h2⟩ | h2
      · have hne : fd2 ≠ fd := by
          rintro rfl
          rw [hud] at h2
          exact hva (Option.some.inj h2).symm
        exact Or.inl (Or.inr ⟨fd2, hne, h2⟩)
      · exact Or.inr h2
  · rintro ((h | ⟨fd2, hne, h2⟩) | h2)
    · exact Or.inl (Option.some.inj h).symm
    · refine Or.inr ⟨?_, (hInv v).2 (Or.inl ⟨fd2, h2⟩)⟩
      rintro rfl
      exact hne (huniq fd2 h2)
    · refine Or.inr ⟨?_, (hInv v).2 (Or.inr h2)⟩
      rintro rfl
      exact hat h2

/-- run_async preserves the registry invariant for a fresh block. -/
theorem good_run_async (s : CoreState) (hG : Good s) (threads : Int) (blk : RVal)
    (hb : blk ≠ RVal.nil) (hfresh : ¬ tracked s blk) :
    Good (run_async s threads blk).1 := by
  obtain ⟨hInv, hndr, hndt⟩ := hG
  have hbr : blk ∉ s.registry := fun h => hfresh ((hInv blk).1 h)
  have hbt : blk ∉ s.tasks := fun h => hfresh (Or.inr h)
  simp only [run_async, if_neg hb]
  refine ⟨?_, List.nodup_cons.mpr ⟨hbr, hndr⟩, List.nodup_cons.mpr ⟨hbt, hndt⟩⟩
  intro v
  simp only [tracked, List.mem_cons]
  constructor
  · rintro (rfl | hv)
    · exact Or.inr (Or.inl rfl)
    · rcases (hInv v).1 hv with h | h
      · exact Or.inl h
      · exact Or.inr (Or.inr h)
  · rintro (h | rfl | h)
    · exact Or.inr ((hInv v).2 (Or.inl h))
    · exact Or.inl rfl
    · exact Or.inr ((hInv v).2 (Or.inr h))

/-- run_protocol_task preserves the registry invariant for a fresh block. -/
theorem good_run_protocol_task (s : CoreState) (hG : Good s) (fd : Nat) (threads : Int)
    (blk : RVal) (hb : blk ≠ RVal.nil) (hfresh : ¬ tracked s blk) :
    Good (run_protocol_task s fd threads blk).1 := by
  obtain ⟨hInv, hndr, hndt⟩ := hG
  have hbr : blk ∉ s.registry := fun h => hfresh ((hInv blk).1 h)
  have hbt : blk ∉ s.tasks := fun h => hfresh (Or.inr h)
  simp only [run_protocol_task, if_neg hb]
  refine ⟨?_, List.nodup_cons.mpr ⟨hbr, hndr⟩, List.nodup_cons.mpr ⟨hbt, hndt⟩⟩
  intro v
  simp only [tracked, List.mem_cons]
  constructor
  · rintro (rfl | hv)
    · exact Or.inr (Or.inl rfl)
    · rcases (hInv v).1 hv with h | h
      · exact Or.inl h
      · exact Or.inr (Or.inr h)
  · rintro (h | rfl | h)
    · exact Or.inr ((hInv v).2 (Or.inl h))
    · exact Or.inl rfl
    · exact Or.inr ((hInv v).2 (Or.inr h))

/-- perform_async preserves the registry invariant when the completed task is
not also bound to a connection. -/
theorem good_perform_async (s : CoreState) (hG : Good s) (t : RVal)
    (hud : ∀ fd, s.udata fd ≠ some t) :
    Good (perform_async s t).1 := by
  obtain ⟨hInv, hndr, hndt⟩ := hG
  simp only [perform_async]
  refine ⟨?_, hndr.erase t, hndt.erase t⟩
  intro v
  simp only [tracked]
  rw [hndr.mem_erase_iff, hndt.mem_erase_iff]
  constructor
  · rintro ⟨hvt, hv⟩
    rcases (hInv v).1 hv with h | h
    · exact Or.inl h
    · exact Or.inr ⟨hvt, h⟩
  · rintro (⟨fd, h⟩ | ⟨hvt, h⟩)
    · refine ⟨?_, (hInv v).2 (Or.inl ⟨fd, h⟩)⟩
      rintro rfl
      exact hud fd h
    · exact ⟨hvt, (hInv v).2 (Or.inr h)⟩

/-- perform_protocol_async preserves the registry invariant when the
completed task is not also bound to a connection. -/
theorem good_perform_protocol_async (s : CoreState) (hG : Good s) (t : RVal)
    (hud : ∀ fd, s.udata fd ≠ some t) :
    Good (perform_protocol_async s t).1 := by
  obtain ⟨hInv, hndr, hndt⟩ := hG
  simp only [perform_protocol_async]
  refine ⟨?_, hndr.erase t, hndt.erase t⟩
  intro v
  simp only [tracked]
  rw [hndr.mem_erase_iff, hndt.mem_erase_iff]
  constructor
  · rintro ⟨hvt, hv⟩
    rcases (hInv v).1 hv with h | h
    · exact Or.inl h
    · exact Or.inr ⟨hvt, h⟩
  · rintro (⟨fd, h⟩ | ⟨hvt, h⟩)
    · refine ⟨?_, (hInv v).2 (Or.inl ⟨fd, h⟩)⟩
      rintro rfl
      exact hud fd h
    · exact ⟨hvt, (hInv v).2 (Or.inr h)⟩

/-! Claim theorems. -/

/-- Claim C1: for every object, method outcome and prior error state, both
gateway paths (RubyCaller.call, which enters the GVL, and
RubyCaller.call_unsafe) return normally rather than propagating a raised
error: on a raise they print "ClassName: message" plus a stack trace to the
diagnostic stream and clear the pending-error state; on a normal return they
hand back the method's result and print nothing. -/
theorem call_gateway_swallows_errors (prior : Option RException) (o : MethodOutcome) :
    (∀ e, o = MethodOutcome.raised e →
        call prior o =
          { returned := RVal.nil, errinfo := none,
            diag := [e.className ++ ": " ++ e.mesg, "<backtrace>"] } ∧
        call_unsafe prior o =
          { returned := RVal.nil, errinfo := none,
            diag := [e.className ++ ": " ++ e.mesg, "<backtrace>"] })
  ∧ (∀ v, o = MethodOutcome.ok v →
        call prior o = { returned := v, errinfo := prior, diag := [] } ∧
        call_unsafe prior o = { returned := v, errinfo := prior, diag := [] }) := by
  constructor
  · rintro e rfl
    exact ⟨rfl, rfl⟩
  · rintro v rfl
    exact ⟨rfl, rfl⟩

/-- Witness for C1 at a concrete raised exception and a concrete normal
return. -/
theorem call_gateway_swallows_errors_witness :
    call none (MethodOutcome.raised { className := "RuntimeError", mesg := "boom" }) =
      { returned := RVal.nil, errinfo := none,
        diag := ["RuntimeError" ++ ": " ++ "boom", "<backtrace>"] } ∧
    call_unsafe none (MethodOutcome.ok (RVal.obj 3)) =
      { returned := RVal.obj 3, errinfo := none, diag := [] } := by
  constructor
  · exact ((call_gateway_swallows_errors none _).1 _ rfl).1
  · exact ((call_gateway_swallows_errors none _).2 (RVal.obj 3) rfl).2

/-- Claim C2: every hand-off operation preserves the invariant that a value
is registered iff a live connection's user-data or an in-flight async task
holds it: connection open (with a fresh constructed object on a fresh fd),
connection close (when the connection is the only native reference to its
object), upgrade (old object referenced only here, new object fresh), task
submission through run or defer (fresh block), and task completion (task not
also bound to a connection). -/
theorem registry_tracks_connections_and_tasks (s : CoreState) (hG : Good s) :
    (∀ fd p, p ≠ RVal.nil → ¬ tracked s p → s.udata fd = none →
        Good (on_open s fd p).1)
  ∧ (∀ fd p, s.udata fd = some p → p ∉ s.tasks →
        (∀ fd2, s.udata fd2 = some p → fd2 = fd) →
        Good (on_close s fd).1)
  ∧ (∀ fd a arg p, upgradeProtocol arg = p → p ≠ RVal.nil →
        s.udata fd = some a → ¬ tracked s p → a ∉ s.tasks →
        (∀ fd2, s.udata fd2 = some a → fd2 = fd) →
        Good (srv_upgrade s fd a arg).1)
  ∧ (∀ threads blk, blk ≠ RVal.nil → ¬ tracked s blk →
        Good (run_async s threads blk).1)
  ∧ (∀ fd threads blk, blk ≠ RVal.nil → ¬ tracked s blk →
        Good (run_protocol_task s fd threads blk).1)
  ∧ (∀ t, (∀ fd, s.udata fd ≠ some t) → Good (perform_async s t).1)
  ∧ (∀ t, (∀ fd, s.udata fd ≠ some t) → Good (perform_protocol_async s t).1) := by
  refine ⟨?_, ?_, ?_, ?_, ?_, ?_, ?_⟩
  · intro fd p hp hfresh hfd
    exact good_on_open s hG fd p hp hfresh hfd
  · intro fd p hud hpt huniq
    exact good_on_close s hG fd p hud hpt huniq
  · intro fd a arg p hparg hp hud hfresh hat huniq
    exact good_upgrade s hG fd a arg p hparg hp hud hfresh hat huniq
  · intro threads blk hb hfresh
    exact good_run_async s hG threads blk hb hfresh
  · intro fd threads blk hb hfresh
    exact good_run_protocol_task s hG fd threads blk hb hfresh
  · intro t hud
    exact good_perform_async s hG t hud
  · intro t hud
    exact good_perform_protocol_async s hG t hud

/-- Witness for C2: opening a connection on the empty state keeps the
invariant. -/
theorem registry_tracks_connections_and_tasks_witness :
    Good (on_open initState 3 (RVal.obj 1)).1 :=
  (registry_tracks_connections_and_tasks initState good_initState).1 3 (RVal.obj 1)
    (by decide) (by simp [initState, tracked]) rfl

/-- Claim C3: on a connection-open event with a Qnil construction result the
connection is closed immediately and the state is untouched (no
registration, no binding, no callback); with a non-nil constructed object,
the object is registered, stored as the connection's user-data, its sockfd
and server ivars are set and its on_open method is invoked. -/
theorem on_open_construction (s : CoreState) (fd : Nat) (constructed : RVal) :
    (constructed = RVal.nil → on_open s fd constructed = (s, [Event.srvClose fd]))
  ∧ (constructed ≠ RVal.nil →
       (on_open s fd constructed).1.registry = constructed :: s.registry
     ∧ (on_open s fd constructed).1.udata fd = some constructed
     ∧ (on_open s fd constructed).1.tasks = s.tasks
     ∧ (on_open s fd constructed).2 =
         [Event.setIvar constructed IvarId.sockfd, Event.setIvar constructed IvarId.server,
          Event.invoke constructed MethodId.on_open]) := by
  constructor
  · intro h
    simp [on_open, h]
  · intro h
    refine ⟨?_, ?_, ?_, ?_⟩ <;> simp [on_open, h]

/-- Witness for C3: both branches at concrete inputs. -/
theorem on_open_construction_witness :
    on_open initState 5 RVal.nil = (initState, [Event.srvClose 5]) ∧
    (on_open initState 5 (RVal.obj 2)).1.udata 5 = some (RVal.obj 2) := by
  constructor
  · exact (on_open_construction initState 5 RVal.nil).1 rfl
  · exact ((on_open_construction initState 5 (RVal.obj 2)).2 (by decide)).2.1

/-- Claim C5: when the upgrade argument is Qnil, or the constructed value is
Qnil, srv_upgrade returns Qnil and the connection keeps its previous
binding: the state (user-data, registry, tasks) is unchanged and no events
fire, in particular no on_open is invoked on any object. -/
theorem srv_upgrade_nil_noop (s : CoreState) (fd : Nat) (self : RVal) (arg : UpgradeArg)
    (h : upgradeProtocol arg = RVal.nil) :
    srv_upgrade s fd self arg = (s, [], RVal.nil)
  ∧ (srv_upgrade s fd self arg).1.udata fd = s.udata fd
  ∧ ∀ o, Event.invoke o MethodId.on_open ∉ (srv_upgrade s fd self arg).2.1 := by
  refine ⟨?_, ?_, ?_⟩ <;> simp [srv_upgrade, h]

/-- Witness for C5: a nil argument and a class whose construction returned
nothing. -/
theorem srv_upgrade_nil_noop_witness :
    srv_upgrade initState 4 (RVal.obj 1) UpgradeArg.nilArg = (initState, [], RVal.nil) ∧
    srv_upgrade initState 4 (RVal.obj 1) (UpgradeArg.cls RVal.nil) =
      (initState, [], RVal.nil) := by
  constructor
  · exact (srv_upgrade_nil_noop initState 4 (RVal.obj 1) UpgradeArg.nilArg rfl).1
  · exact (srv_upgrade_nil_noop initState 4 (RVal.obj 1) (UpgradeArg.cls RVal.nil) rfl).1

/-- Claim C7: for a connection with a bound protocol object, a ping event
under the default ping method closes the connection when it is not busy
(idle timeout) and otherwise resets the idle timer (touch) without closing. -/
theorem ping_idle_policy (s : CoreState) (fd : Nat) (p : RVal) (busy : Bool)
    (h : s.udata fd = some p) :
    (busy = false → ping s fd busy = [Event.invoke p MethodId.ping, Event.srvClose fd])
  ∧ (busy = true → ping s fd busy = [Event.invoke p MethodId.ping, Event.touch fd]
       ∧ Event.srvClose fd ∉ ping s fd busy) := by
  constructor
  · rintro rfl
    simp [ping, h, no_ping_func]
  · rintro rfl
    refine ⟨?_, ?_⟩ <;> simp [ping, h, no_ping_func]

/-- The concrete state used by the ping witness: one open connection on fd 2
bound to object 1. -/
def pingDemoState : CoreState :=
  { registry := [RVal.obj 1],
    udata := fun n => if n = 2 then some (RVal.obj 1) else none,
    tasks := [] }

/-- Witness for C7 at a concrete bound connection, both busy values. -/
theorem ping_idle_policy_witness :
    ping pingDemoState 2 false = [Event.invoke (RVal.obj 1) MethodId.ping, Event.srvClose 2] ∧
    ping pingDemoState 2 true = [Event.invoke (RVal.obj 1) MethodId.ping, Event.touch 2] := by
  constructor
  · exact (ping_idle_policy pingDemoState 2 (RVal.obj 1) false (by simp [pingDemoState])).1 rfl
  · exact ((ping_idle_policy pingDemoState 2 (RVal.obj 1) true (by simp [pingDemoState])).2 rfl).1

/-- Claim C4: a successful upgrade from object `a` to a non-nil `b` returns
b, writes b into the connection's user-data (so a later data event is
delivered to b), deregisters a (never invoking on_close on it), registers b,
sets b's sockfd and server bindings, and invokes on_open on b exactly once. -/
theorem srv_upgrade_success (s : CoreState) (fd : Nat) (a b : RVal) (arg : UpgradeArg)
    (hb : upgradeProtocol arg = b) (hbn : b ≠ RVal.nil) (hab : a ≠ b)
    (hnd : s.registry.Nodup) :
    (srv_upgrade s fd a arg).2.2 = b
  ∧ (srv_upgrade s fd a arg).1.udata fd = some b
  ∧ on_data (srv_upgrade s fd a arg).1 fd = [Event.invoke b MethodId.on_data]
  ∧ a ∉ (srv_upgrade s fd a arg).1.registry
  ∧ b ∈ (srv_upgrade s fd a arg).1.registry
  ∧ (srv_upgrade s fd a arg).2.1 =
      [Event.setIvar b IvarId.sockfd, Event.setIvar b IvarId.server,
       Event.invoke b MethodId.on_open]
  ∧ ((srv_upgrade s fd a arg).2.1).count (Event.invoke b MethodId.on_open) = 1
  ∧ Event.invoke a MethodId.on_close ∉ (srv_upgrade s fd a arg).2.1 := by
  have hmem : a ∉ b :: s.registry.erase a := by
    intro h
    rcases List.mem_cons.mp h with h | h
    · exact hab h
    · exact ((hnd.mem_erase_iff).1 h).1 rfl
  refine ⟨?_, ?_, ?_, ?_, ?_, ?_, ?_, ?_⟩
  · simp [srv_upgrade, hb, if_neg hbn]
  · simp [srv_upgrade, hb, if_neg hbn]
  · simp [srv_upgrade, hb, if_neg hbn, on_data]
  · simpa [srv_upgrade, hb, if_neg hbn] using hmem
  · simp [srv_upgrade, hb, if_neg hbn]
  · simp [srv_upgrade, hb, if_neg hbn]
  · simp [srv_upgrade, hb, if_neg hbn, List.count_cons]
  · simp [srv_upgrade, hb, if_neg hbn]

/-- Witness for C4: upgrading object 1 to object 2 on the empty state. -/
theorem srv_upgrade_success_witness :
    (srv_upgrade initState 1 (RVal.obj 1) (UpgradeArg.inst (RVal.obj 2))).2.2 = RVal.obj 2 ∧
    RVal.obj 1 ∉ (srv_upgrade initState 1 (RVal.obj 1) (UpgradeArg.inst (RVal.obj 2))).1.registry := by
  have h := srv_upgrade_success initState 1 (RVal.obj 1) (RVal.obj 2)
    (UpgradeArg.inst (RVal.obj 2)) rfl (by decide) (by decide) (by simp [initState])
  exact ⟨h.1, h.2.2.2.1⟩

/-- Claim C8 (the code diverges): with a negative thread count, run and defer
do warn and execute the block synchronously (rb_yield), but the code then
falls through: the block is still registered and handed to the Network
Core's task queue (Server.run_async / Server.fd_task), so the call does not
end at the synchronous execution. -/
theorem run_async_nonconcurrent_still_queues :
    (run_async initState (-1) (RVal.obj 7)).2.1 =
      [Event.warn asyncWarnMsg, Event.syncYield, Event.queueTask (RVal.obj 7)]
  ∧ RVal.obj 7 ∈ (run_async initState (-1) (RVal.obj 7)).1.tasks
  ∧ RVal.obj 7 ∈ (run_async initState (-1) (RVal.obj 7)).1.registry
  ∧ (run_protocol_task initState 4 (-1) (RVal.obj 8)).2.1 =
      [Event.warn asyncWarnMsg, Event.syncYield, Event.queueFdTask 4 (RVal.obj 8)]
  ∧ RVal.obj 8 ∈ (run_protocol_task initState 4 (-1) (RVal.obj 8)).1.tasks := by
  refine ⟨rfl, ?_, ?_, rfl, ?_⟩ <;> simp [run_async, run_protocol_task, initState]

/-- Claim C9 (the code diverges): because the processes and threads checks
use a conjunction with `TYPE(v) != T_FIXNUM`, a Fixnum value out of the
documented range passes validation: threads = 500 and processes = 100 are
accepted and srv_start proceeds to build the settings and listen. -/
theorem srv_start_accepts_oversized_config :
    srv_start 0 { protocol := RubyVal.cls, port := RubyVal.nil, address := RubyVal.nil,
                  timeout := RubyVal.nil, threads := RubyVal.fixnum 500,
                  processes := RubyVal.fixnum 100, busy_msg := RubyVal.nil }
      = Except.ok { threads := 500, processes := 100, timeout := 10, port := 3000 } := by
  rfl

/-- The length the string coming out of srv_read_run carries, by sign of the
byte count Server.read returned. -/
theorem srv_read_run_spec (buffer : RubyVal) (io : Nat → Int) :
    (io (srv_read_buflen buffer) ≤ 0 → (srv_read_run buffer io).len = 0)
  ∧ (0 < io (srv_read_buflen buffer) →
      ((srv_read_run buffer io).len : Int) = io (srv_read_buflen buffer)) := by
  constructor
  · intro h
    simp only [srv_read_run]
    rw [if_neg (not_lt.mpr h)]
  · intro h
    simp only [srv_read_run]
    rw [if_pos h]
    exact Int.toNat_of_nonneg (le_of_lt h)

/-- Claim C10: srv_read on a well-formed argument vector always returns a
string (never nil, never a raised error from the read itself): when
Server.read reports zero or a negative count the string is empty, and on a
positive count the string's length is exactly the byte count read. -/
theorem srv_read_returns_string (arg : ReadCallArg) (io : Nat → Int)
    (hvalid : readArgValid arg = true) :
    ∃ r : RStr, srv_read arg io = Except.ok r
      ∧ r.binary = true
      ∧ (io (bufLenOf arg) ≤ 0 → r.len = 0)
      ∧ (0 < io (bufLenOf arg) → (r.len : Int) = io (bufLenOf arg)) := by
  cases arg with
  | argsMany => simp [readArgValid] at hvalid
  | args0 =>
      exact ⟨_, rfl, rfl, (srv_read_run_spec (RubyVal.fixnum 1024) io).1,
             (srv_read_run_spec (RubyVal.fixnum 1024) io).2⟩
  | args1 v =>
      cases v with
      | nil =>
          exact ⟨_, rfl, rfl,
            (srv_read_run_spec
              (if RubyVal.nil = RubyVal.nil then RubyVal.fixnum 1024 else RubyVal.nil) io).1,
            (srv_read_run_spec
              (if RubyVal.nil = RubyVal.nil then RubyVal.fixnum 1024 else RubyVal.nil) io).2⟩
      | fixnum n =>
          exact ⟨_, rfl, rfl,
            (srv_read_run_spec
              (if RubyVal.fixnum n = RubyVal.nil then RubyVal.fixnum 1024
               else RubyVal.fixnum n) io).1,
            (srv_read_run_spec
              (if RubyVal.fixnum n = RubyVal.nil then RubyVal.fixnum 1024
               else RubyVal.fixnum n) io).2⟩
      | str c =>
          exact ⟨_, rfl, rfl,
            (srv_read_run_spec
              (if RubyVal.str c = RubyVal.nil then RubyVal.fixnum 1024
               else RubyVal.str c) io).1,
            (srv_read_run_spec
              (if RubyVal.str c = RubyVal.nil then RubyVal.fixnum 1024
               else RubyVal.str c) io).2⟩
      | cls => simp [readArgValid] at hvalid
      | other => simp [readArgValid] at hvalid

/-- Witness for C10: a no-argument read whose underlying read errors with -3
yields an empty string, and a successful 5-byte read yields length 5. -/
theorem srv_read_returns_string_witness :
    (∃ r : RStr, srv_read ReadCallArg.args0 (fun _ => (-3 : Int)) = Except.ok r ∧ r.len = 0) ∧
    (∃ r : RStr, srv_read ReadCallArg.args0 (fun _ => (5 : Int)) = Except.ok r ∧ r.len = 5) := by
  constructor
  · obtain ⟨r, hok, _, hz, _⟩ :=
      srv_read_returns_string ReadCallArg.args0 (fun _ => (-3 : Int)) rfl
    exact ⟨r, hok, hz (by decide)⟩
  · obtain ⟨r, hok, _, _, hp⟩ :=
      srv_read_returns_string ReadCallArg.args0 (fun _ => (5 : Int)) rfl
    exact ⟨r, hok, by exact_mod_cast hp (by decide)⟩


/-- One iteration's read inside def_on_data: reading into the cap-sized
buffer from a connection holding `pending` unread bytes yields a string of
min(pending, cap) bytes. -/
theorem srv_read_str_min (cap pending : Nat) (hc : 1024 ≤ cap) :
    srv_read (ReadCallArg.args1 (RubyVal.str cap))
        (fun l => ((min pending l : Nat) : Int)) =
      Except.ok { len := min pending cap, binary := true } := by
  have key : ∀ m : Nat, (if ((m : Int) > 0) then (m : Int).toNat else 0) = m := by
    intro m
    rcases Nat.eq_zero_or_pos m with hm | hm
    · subst hm
      norm_num
    · rw [if_pos (by exact_mod_cast hm)]
      exact Int.toNat_natCast m
  have hbuf : srv_read_buflen (RubyVal.str cap) = cap := if_neg (Nat.not_lt.mpr hc)
  show Except.ok (srv_read_run (RubyVal.str cap) (fun l => ((min pending l : Nat) : Int))) =
       Except.ok { len := min pending cap, binary := true }
  simp only [srv_read_run]
  rw [hbuf, key (min pending cap)]

/-- Closed form of the def_on_data read loop: with buffer capacity cap and
`pending` unread bytes, on_message is invoked with a full cap-sized buffer
floor(pending / cap) times and once more with the remainder when it is not
zero; the loop stops at the first zero-byte read. -/
theorem def_on_data_loop_closed (cap : Nat) (hc : 1024 ≤ cap) :
    ∀ fuel pending, pending ≤ fuel →
      def_on_data_loop cap fuel pending =
        List.replicate (pending / cap) cap ++
          (if pending % cap = 0 then [] else [pending % cap]) := by
  intro fuel
  induction fuel with
  | zero =>
      intro pending hp
      have h0 : pending = 0 := Nat.le_zero.mp hp
      subst h0
      simp [def_on_data_loop]
  | succ fuel ih =>
      intro pending hp
      by_cases h0 : pending = 0
      · subst h0
        rw [def_on_data_loop, srv_read_str_min cap 0 hc]
        norm_num
      · by_cases hlt : pending < cap
        · have hmin : min pending cap = pending := Nat.min_eq_left (le_of_lt hlt)
          rw [def_on_data_loop, srv_read_str_min cap pending hc]
          rw [Nat.div_eq_of_lt hlt, Nat.mod_eq_of_lt hlt]
          simp [hmin, h0, Nat.ne_of_lt hlt]
        · push_neg at hlt
          have hmin : min pending cap = cap := Nat.min_eq_right hlt
          have hcap0 : cap ≠ 0 := by omega
          rw [def_on_data_loop, srv_read_str_min cap pending hc]
          simp [hmin, hcap0, ih (pending - cap) (by omega),
                Nat.div_eq_sub_div (show 0 < cap by omega) hlt, Nat.mod_eq_sub_mod hlt,
                List.replicate_succ]

/-- Claim C6: the default on_data lazily uses a read buffer of capacity at
least 1024 (exactly 1024 when the buffer ivar was nil) and loops reading up
to that capacity, stopping on a zero-byte read and invoking on_message once
per non-empty read, repeating only while the read exactly filled the buffer
(so the messages are floor(pending / cap) full buffers plus a shorter tail);
with 2048 pending bytes and the lazily created 1024-byte buffer, on_message
is invoked exactly twice with 1024 bytes each. -/
theorem def_on_data_read_loop (bufIvar : Option Nat) (pending : Nat) :
    1024 ≤ (def_on_data bufIvar pending).1
  ∧ (def_on_data none pending).1 = 1024
  ∧ (def_on_data bufIvar pending).2 =
      List.replicate (pending / (def_on_data bufIvar pending).1)
          (def_on_data bufIvar pending).1
        ++ (if pending % (def_on_data bufIvar pending).1 = 0 then []
            else [pending % (def_on_data bufIvar pending).1])
  ∧ (def_on_data none 2048).2 = [1024, 1024] := by
  have hc : 1024 ≤ def_on_data_cap bufIvar := by
    cases bufIvar with
    | none => simp [def_on_data_cap]
    | some c =>
        simp only [def_on_data_cap]
        split <;> omega
  refine ⟨hc, rfl, ?_, ?_⟩
  · exact def_on_data_loop_closed (def_on_data_cap bufIvar) hc pending pending le_rfl
  · have h := def_on_data_loop_closed 1024 le_rfl 2048 2048 le_rfl
    simp only [def_on_data, def_on_data_cap]
    rw [h]
    rfl
